import Mathlib

/-!
Shallow embedding of the UI/UX Telegram bot's lesson acquisition and delivery
pipeline (repository `tele-bots`, directory `src/uiux_bot`), together with
theorems settling the specification claims about it.

The embedded code comes from:
  * `app/api/openai_client.py` — lesson generation, response repair parsing,
    content cache, fallback lesson;
  * `app/bot/handlers.py` — `sanitize_html_for_telegram`, `send_lesson`,
    `send_large_text_in_chunks`, `on_poll_answer`;
  * `app/bot/scheduler.py` — `LessonScheduler.send_scheduled_lesson`.

Python strings are modelled as Lean `String` (`len` = code-point count in both),
Python `dict`s holding quiz sessions / cache entries as association lists with
dictionary semantics (unique keys; insertion replaces, deletion erases the key),
exceptions as `Option`/explicit failure flags threaded through the control flow,
and the external collaborators (OpenAI chat call, Telegram transport, image
manager) as environments recording each call's outcome.
-/

set_option maxHeartbeats 1600000

/-! ## Python string primitives used by the source -/

/-- Python whitespace characters (the ASCII portion of `str.strip` / `\s`). -/
def isPySpace (c : Char) : Bool :=
  c = ' ' || c = '\t' || c = '\n' || c = '\x0d' || c = '\x0c' || c = '\x0b'

/-- Python `str.strip()` (ASCII whitespace). -/
def pyStrip (s : String) : String :=
  String.mk (((s.toList.dropWhile isPySpace).reverse.dropWhile isPySpace).reverse)

/-- Python `str.lower()` (ASCII case folding). -/
def pyLower (s : String) : String :=
  String.mk (s.toList.map Char.toLower)

/-- One step of Python `str.title()`: uppercase a letter that follows a
non-letter, lowercase the rest. -/
def pyTitleAux : Bool → List Char → List Char
  | _, [] => []
  | prevAlpha, c :: cs =>
    if c.isAlpha then
      (if prevAlpha then c.toLower else c.toUpper) :: pyTitleAux true cs
    else
      c :: pyTitleAux false cs

/-- Python `str.title()` (ASCII letters). -/
def pyTitle (s : String) : String :=
  String.mk (pyTitleAux false s.toList)

/-- Emit a run of `k` newlines, collapsed to two when `k ≥ 3`; this is the
effect of `re.sub(r'\n\x7b3,\x7d', '\n\n', ...)` on one maximal newline run. -/
def emitNl (k : Nat) : List Char :=
  List.replicate (if 3 ≤ k then 2 else k) '\n'

/-- Scan characters keeping count of the pending newline run, collapsing runs
of three or more to exactly two (`re.sub(r'\n\x7b3,\x7d', '\n\n', text)`). -/
def collapseNlAux : Nat → List Char → List Char
  | k, [] => emitNl k
  | k, c :: cs =>
    if c = '\n' then collapseNlAux (k + 1) cs
    else emitNl k ++ (c :: collapseNlAux 0 cs)

/-- `re.sub(r'\n\x7b3,\x7d', '\n\n', text)` from `sanitize_html_for_telegram`. -/
def collapseNewlines (s : String) : String :=
  String.mk (collapseNlAux 0 s.toList)

/-- Match a literal character sequence, returning the remaining suffix. -/
def matchLit : List Char → List Char → Option (List Char)
  | [], s => some s
  | _, [] => none
  | p :: ps, c :: cs => if c = p then matchLit ps cs else none

/-- Python `str.replace(pat, repl)`: replace every non-overlapping occurrence
left to right.  The fuel starts at the input length, which suffices for the
non-empty patterns the source uses. -/
def pyReplaceAux (pat repl : List Char) : Nat → List Char → List Char
  | 0, s => s
  | _, [] => []
  | fuel + 1, c :: cs =>
    match matchLit pat (c :: cs) with
    | some rest => repl ++ pyReplaceAux pat repl fuel rest
    | none => c :: pyReplaceAux pat repl fuel cs

/-- Python `s.replace(pat, repl)` for a non-empty `pat`. -/
def pyReplace (s pat repl : String) : String :=
  String.mk (pyReplaceAux pat.toList repl.toList s.toList.length s.toList)

/-! ## `handlers.sanitize_html_for_telegram` (handlers.py lines 37-55) -/

/-- Embedding of `sanitize_html_for_telegram`.  `str.replace` replaces every
non-overlapping occurrence left to right (`pyReplace`). -/
def sanitizeHtmlForTelegram (text : String) : String :=
  if text = "" then ""
  else
    let t1 := pyReplace (pyReplace text "**" "<b>") "**" "</b>"
    let t2 := pyReplace (pyReplace t1 "*" "<i>") "*" "</i>"
    let t3 := pyReplace (pyReplace (pyReplace t2 "<br>" "\n") "<br/>" "\n") "<br />" "\n"
    collapseNewlines t3

/-! ## JSON values and the lesson record (`openai_client.py`)

`generate_lesson_content` builds a Python dict with keys `title`, `content`,
`quiz_question`, `quiz_options`, `correct_option_index`, `explanation`,
`option_explanations`.  After the strict-path validation, `quiz_options` is
known to be a list and `correct_option_index` an `int`; the remaining fields
keep whatever JSON value the generator produced, so they are modelled as
`JVal`. -/

inductive JVal where
  | jstr (s : String)
  | jint (n : Int)
  | jlist (l : List JVal)
  | jother

/-- Length of a JSON list value, `none` on non-list values. -/
def JVal.listLen : JVal → Option Nat
  | .jlist l => some l.length
  | _ => none

/-- The lesson dict returned by `generate_lesson_content`. -/
structure LessonData where
  title : JVal
  content : JVal
  quiz_question : JVal
  quiz_options : List JVal
  correct_option_index : Int
  explanation : JVal
  option_explanations : JVal

/-- The parsed form of a generator response object (`json.loads` result): each
required key either absent or carrying a JSON value.  Other keys are ignored by
the source. -/
structure JsonObj where
  title : Option JVal
  content : Option JVal
  quiz_question : Option JVal
  quiz_options : Option JVal
  correct_option_index : Option JVal
  explanation : Option JVal
  option_explanations : Option JVal

/-- A raw generator response, after `content.strip()` and code-fence removal
(openai_client.py lines 137-141).  `json.loads` is the Python stdlib, external
to the repository: `parsed = none` models a `json.JSONDecodeError`, and
`parsed = some obj` the decoded object — for a response with duplicated keys
`json.loads` keeps the last occurrence, so such responses still appear here
with `parsed` set.  `cleaned` is the text the regex fallback scans. -/
structure RawResp where
  cleaned : String
  parsed : Option JsonObj

/-! ## Regex primitives of the fallback extractor (openai_client.py 203-265)

The fallback uses `re.search`/`re.findall` with four fixed patterns; they are
implemented here directly over character lists with Python semantics: the
search tries every start position left to right and returns the first full
match. -/

/-- Scan to the first `"` character, returning the body before it and the
suffix after it; `none` when no `"` remains (the pattern cannot close). -/
def takeToQuote : List Char → Option (List Char × List Char)
  | [] => none
  | c :: cs =>
    if c = '"' then some ([], cs)
    else match takeToQuote cs with
      | some (b, r) => some (c :: b, r)
      | none => none

/-- Scan to the first `]` character (the non-greedy `(.*?)\]` tail of the
`quiz_options` pattern, with `re.DOTALL`). -/
def takeToRBracket : List Char → Option (List Char × List Char)
  | [] => none
  | c :: cs =>
    if c = ']' then some ([], cs)
    else match takeToRBracket cs with
      | some (b, r) => some (c :: b, r)
      | none => none

/-- Try a pattern at every start position, first success wins (`re.search`). -/
def searchFrom (tryAt : List Char → Option α) : List Char → Option α
  | [] => tryAt []
  | s@(_ :: cs) =>
    match tryAt s with
    | some a => some a
    | none => searchFrom tryAt cs

/-- One attempt of `"key":\s*"([^"]+)"` at the current position. -/
def tryQuotedField (key : List Char) (s : List Char) : Option String :=
  match matchLit ('"' :: key ++ ['"', ':']) s with
  | none => none
  | some rest =>
    match rest.dropWhile isPySpace with
    | '"' :: r2 =>
      match takeToQuote r2 with
      | some (b, _) => if b = [] then none else some (String.mk b)
      | none => none
    | _ => none

/-- `re.search(r'"<key>":\s*"([^"]+)"', content)`, returning the capture. -/
def extractQuotedField (key : String) (raw : String) : Option String :=
  searchFrom (tryQuotedField key.toList) raw.toList

/-- One attempt of `"key":\s*\[(.*?)\]` at the current position. -/
def tryBracketField (key : List Char) (s : List Char) : Option String :=
  match matchLit ('"' :: key ++ ['"', ':']) s with
  | none => none
  | some rest =>
    match rest.dropWhile isPySpace with
    | '[' :: r2 =>
      match takeToRBracket r2 with
      | some (b, _) => some (String.mk b)
      | none => none
    | _ => none

/-- `re.search(r'"<key>":\s*\[(.*?)\]', content, re.DOTALL)`. -/
def extractBracketSpan (key : String) (raw : String) : Option String :=
  searchFrom (tryBracketField key.toList) raw.toList

/-- Digit-string value (`int()` of a `\d+` capture). -/
def natOfDigits (ds : List Char) : Nat :=
  ds.foldl (fun a c => a * 10 + (c.toNat - '0'.toNat)) 0

/-- One attempt of `"key":\s*(\d+)` at the current position. -/
def tryIntField (key : List Char) (s : List Char) : Option Nat :=
  match matchLit ('"' :: key ++ ['"', ':']) s with
  | none => none
  | some rest =>
    let ds := (rest.dropWhile isPySpace).takeWhile Char.isDigit
    if ds = [] then none else some (natOfDigits ds)

/-- `re.search(r'"<key>":\s*(\d+)', content)`, returning `int()` of the capture. -/
def extractIntField (key : String) (raw : String) : Option Nat :=
  searchFrom (tryIntField key.toList) raw.toList

/-- State machine for `re.findall(r'"([^"]+)"', span)`: `none` means outside a
candidate match, `some acc` means inside one, the reversed body so far.  A
quote closing an empty body is the regex engine restarting at that quote, so
it opens a fresh candidate. -/
def findallQuotedAux : Option (List Char) → List Char → List String
  | _, [] => []
  | none, c :: cs =>
    if c = '"' then findallQuotedAux (some []) cs else findallQuotedAux none cs
  | some acc, c :: cs =>
    if c = '"' then
      if acc = [] then findallQuotedAux (some []) cs
      else String.mk acc.reverse :: findallQuotedAux none cs
    else findallQuotedAux (some (c :: acc)) cs

/-- `re.findall(r'"([^"]+)"', span)`: all non-overlapping quoted captures. -/
def findallQuoted (s : List Char) : List String :=
  findallQuotedAux none s

/-- Scan to the first `'` character (single-quoted Python string body). -/
def takeToApos : List Char → Option (List Char × List Char)
  | [] => none
  | c :: cs =>
    if c = '\'' then some ([], cs)
    else match takeToApos cs with
      | some (b, r) => some (c :: b, r)
      | none => none

/-- Item list of a Python list display: `'body' (ws ',' ws 'body')*` to the end
of the bracket interior, fuelled by the input length. -/
def litEvalAux : Nat → List Char → Option (List String)
  | 0, _ => none
  | n + 1, s =>
    match s.dropWhile isPySpace with
    | '\'' :: r =>
      match takeToApos r with
      | none => none
      | some (body, rest) =>
        match rest.dropWhile isPySpace with
        | [] => some [String.mk body]
        | ',' :: r2 => (litEvalAux n r2).map (String.mk body :: ·)
        | _ => none
    | _ => none

/-- Modelled stdlib call: `ast.literal_eval` applied to a string that starts
with `[` and ends with `]`, restricted to the shape the pipeline feeds it —
a Python list display of single-quoted strings without escape sequences,
e.g. `['a', 'b']`.  Any other literal (numeric lists, escapes, trailing
commas) is treated as an eval failure (`none`); the source catches the
failure and keeps the original string. -/
def pyLiteralEvalStrList (s : String) : Option (List String) :=
  match (s.toList.dropWhile isPySpace).reverse.dropWhile isPySpace with
  | ']' :: rrev =>
    match rrev.reverse with
    | '[' :: inner =>
      if (inner.dropWhile isPySpace).isEmpty then some []
      else litEvalAux (inner.length + 1) inner
    | _ => none
  | _ => none

/-- Outcome of Python `int(x)` inside the strict path. -/
inductive PyIntOutcome where
  | ok (n : Int)
  | valueErr
  | typeErr

/-- Python `int(x)` as applied to `correct_option_index` (openai_client.py
line 160): an `int` passes through; a string is parsed (strip, optional sign,
decimal digits) or raises `ValueError`; a list or other JSON value raises
`TypeError`.  The strict-path `except (json.JSONDecodeError, ValueError)`
clause does not catch `TypeError`, which therefore propagates to the outer
retry loop (line 276). -/
def pyIntCast : JVal → PyIntOutcome
  | .jint n => .ok n
  | .jstr s =>
    match (pyStrip s).toList with
    | '-' :: ds =>
      if !ds.isEmpty && ds.all Char.isDigit then .ok (-(natOfDigits ds : Int)) else .valueErr
    | '+' :: ds =>
      if !ds.isEmpty && ds.all Char.isDigit then .ok (natOfDigits ds : Int) else .valueErr
    | ds =>
      if !ds.isEmpty && ds.all Char.isDigit then .ok (natOfDigits ds : Int) else .valueErr
  | .jlist _ => .typeErr
  | .jother => .typeErr

/-- `f"This isn't the best answer for \x7btheme\x7d."` (lines 176 and 244). -/
def fillerExplanation (theme : String) : String :=
  "This isn\x27t the best answer for " ++ theme ++ "."

/-- openai_client.py lines 163-179: when `option_explanations` is absent,
build a list sized to the options; the correct index (only when it is in
range) receives the `explanation` value, every other slot the generic filler. -/
def synthOptionExplanations (theme : String) (numOptions : Nat) (correctIndex : Int)
    (explanation : JVal) : List JVal :=
  (List.range numOptions).map fun i =>
    if 0 ≤ correctIndex ∧ correctIndex < numOptions ∧ (i : Int) = correctIndex then explanation
    else .jstr (fillerExplanation theme)

/-- openai_client.py lines 184-191 (and 258-265): a string `content` that looks
like `[...]` is re-parsed as a literal list; on success it replaces the string,
otherwise it is kept unchanged. -/
def massageContent (v : JVal) : JVal :=
  match v with
  | .jstr s =>
    if s.toList.head? == some '[' && s.toList.getLast? == some ']' then
      match pyLiteralEvalStrList s with
      | some l => .jlist (l.map .jstr)
      | none => .jstr s
    else .jstr s
  | v => v

/-- Outcome of the strict-JSON stage: a validated lesson, a `ValueError`-class
failure (handled by falling back to regex extraction), or a `TypeError` that
escapes to the retry loop. -/
inductive StrictOutcome where
  | ok (d : LessonData)
  | valueErr
  | typeErr

/-- openai_client.py lines 144-197: strict-path validation of a decoded
response object — require the six fields, require `quiz_options` to be a list,
coerce `correct_option_index` with `int()`, synthesize `option_explanations`
when absent, massage `content`. -/
def strictValidate (theme : String) (obj : JsonObj) : StrictOutcome :=
  if obj.title.isNone || obj.content.isNone || obj.quiz_question.isNone ||
      obj.quiz_options.isNone || obj.correct_option_index.isNone || obj.explanation.isNone then
    .valueErr
  else
    match obj.quiz_options with
    | some (JVal.jlist opts) =>
      match pyIntCast (obj.correct_option_index.getD JVal.jother) with
      | .valueErr => .valueErr
      | .typeErr => .typeErr
      | .ok idx =>
        let explanation := obj.explanation.getD JVal.jother
        let optExpl : JVal :=
          match obj.option_explanations with
          | some v => v
          | none => JVal.jlist (synthOptionExplanations theme opts.length idx explanation)
        StrictOutcome.ok {
          title := obj.title.getD JVal.jother
          content := massageContent (obj.content.getD JVal.jother)
          quiz_question := obj.quiz_question.getD JVal.jother
          quiz_options := opts
          correct_option_index := idx
          explanation := explanation
          option_explanations := optExpl }
    | _ => .valueErr

/-- The quoted strings recovered from a bracketed field of the raw text
(openai_client.py lines 214-217 and 232-234). -/
def recoveredList (key : String) (content : String) : List String :=
  match extractBracketSpan key content with
  | some span => findallQuoted span.toList
  | none => []

/-- The fixed placeholder option set (openai_client.py line 220). -/
def placeholderOptions : List String := ["Option A", "Option B", "Option C", "Option D"]

/-- openai_client.py lines 214-220: the recovered options, or the placeholder
set when fewer than two were found. -/
def fallbackOptions (content : String) : List String :=
  let options0 := recoveredList "quiz_options" content
  if options0.length < 2 then placeholderOptions else options0

/-- openai_client.py lines 222-225: the extracted index (default 0), clamped
to 0 when at or past the option count. -/
def fallbackIndex (content : String) : Nat :=
  let correctIndex0 := (extractIntField "correct_option_index" content).getD 0
  if (fallbackOptions content).length ≤ correctIndex0 then 0 else correctIndex0

/-- openai_client.py lines 230-244: recovered `option_explanations`, rebuilt
index-aligned from `explanation` plus the filler when fewer strings than
options were recovered. -/
def fallbackOptionExplanations (theme content explanation : String) : List String :=
  let optExpl0 := recoveredList "option_explanations" content
  if optExpl0.length < (fallbackOptions content).length then
    (List.range (fallbackOptions content).length).map fun i =>
      if i = fallbackIndex content then explanation else fillerExplanation theme
  else optExpl0

/-- openai_client.py lines 203-265: the field-by-field regex fallback.  Every
field gets a generic default when its pattern finds nothing. -/
def regexExtract (theme : String) (content : String) : LessonData :=
  let title := (extractQuotedField "title" content).getD ("Guide to " ++ theme)
  let lessonContent := (extractQuotedField "content" content).getD
    ("Learn about " ++ theme ++ " in UI/UX design.")
  let quizQuestion := (extractQuotedField "quiz_question" content).getD
    ("What\x27s important about " ++ theme ++ "?")
  let explanation := (extractQuotedField "explanation" content).getD
    ("This is the right answer for " ++ theme ++ ".")
  { title := .jstr title
    content := massageContent (.jstr lessonContent)
    quiz_question := .jstr quizQuestion
    quiz_options := (fallbackOptions content).map .jstr
    correct_option_index := (fallbackIndex content : Int)
    explanation := .jstr explanation
    option_explanations := .jlist ((fallbackOptionExplanations theme content explanation).map .jstr) }

/-- One parse of a received response (openai_client.py lines 137-271): strict
stage first; `json.JSONDecodeError`/`ValueError` fall back to regex
extraction; a `TypeError` from `int()` escapes the inner handler and is an
`.error` consuming a retry slot. -/
def parseAttempt (theme : String) (resp : RawResp) : Except Unit LessonData :=
  match resp.parsed with
  | none => .ok (regexExtract theme resp.cleaned)
  | some obj =>
    match strictValidate theme obj with
    | .ok d => .ok d
    | .valueErr => .ok (regexExtract theme resp.cleaned)
    | .typeErr => .error ()

/-! ## `get_fallback_lesson` (openai_client.py lines 300-330) -/

/-- The canned fallback lesson; deterministic in `theme` (the `lru_cache` only
memoizes it). -/
def getFallbackLesson (theme : String) : LessonData :=
  let themeTitle := pyTitle theme
  { title := .jstr ("Quick Tips for " ++ themeTitle ++ " üöÄ")
    content := .jlist [
      .jstr ("üîç <b>Understanding " ++ themeTitle ++
        "</b> is all about making designs that are easy and enjoyable to use."),
      .jstr ("‚≠ê Think of " ++ themeTitle ++
        " like a friendly guide that helps people find what they need quickly."),
      .jstr "üéØ Focus on what your users actually need, not just what looks pretty.",
      .jstr "üß© Keep it simple! Less is often more when it comes to good design.",
      .jstr "üëÄ Watch real people use your design to see where they get confused.",
      .jstr "‚úèÔ∏è Start with rough sketches before jumping into detailed designs.",
      .jstr "üîÑ Remember to test and improve your designs based on feedback!"]
    quiz_question := .jstr ("What\x27s the most important goal when designing with " ++
      theme ++ " in mind?")
    quiz_options := [
      .jstr "Making it look impressive with lots of features",
      .jstr "Making it easy for people to use",
      .jstr "Using the latest design trends",
      .jstr "Using as many colors as possible"]
    correct_option_index := 1
    explanation := .jstr ("Making it easy for people to use is the main goal of " ++ theme ++
      ". When designing, always think about the people who will use your design and how to make things simpler for them. The best designs often feel invisible because they work so well!")
    option_explanations := .jlist [
      .jstr ("While aesthetics matter, prioritizing features over usability can make designs confusing and difficult to use. " ++
        theme ++ " design should focus on solving user problems rather than showing off features."),
      .jstr ("Correct! Making it easy for people to use is the main goal of " ++ theme ++
        ". When designing, always think about the people who will use your design and how to make things simpler for them. The best designs often feel invisible because they work so well!"),
      .jstr ("Following trends without considering usability can lead to designs that look current but aren\x27t effective. Good " ++
        theme ++ " design starts with user needs rather than trends."),
      .jstr ("Using many colors without purpose can make interfaces overwhelming and hard to navigate. In " ++
        theme ++ " design, colors should be chosen thoughtfully to guide users and improve usability.")] }

/-! ## Content cache and `generate_lesson_content` (openai_client.py 52-296) -/

/-- `_cache_ttl = 3600 * 24` seconds. -/
def cacheTtl : Nat := 3600 * 24

/-- `_lesson_cache`: a dict `theme_lower → (timestamp, lesson)`. -/
abbrev LessonCache := List (String × Nat × LessonData)

/-- Dict lookup (unique keys). -/
def cacheLookup : LessonCache → String → Option (Nat × LessonData)
  | [], _ => none
  | (k, e) :: rest, key => if k = key then some e else cacheLookup rest key

/-- Dict assignment `_lesson_cache[theme_lower] = (time.time(), d)`. -/
def cacheInsert : LessonCache → String → Nat → LessonData → LessonCache
  | [], key, ts, d => [(key, ts, d)]
  | (k, e) :: rest, key, ts, d =>
    if k = key then (key, ts, d) :: rest else (k, e) :: cacheInsert rest key ts d

/-- Collaborator behavior for one `generate_lesson_content` run: whether the
OpenAI feature is disabled, and the outcome of each chat-completion call by
global call number — `none` models a transport/API exception, `some resp` a
returned response text. -/
structure GenEnv where
  disableOpenAI : Bool
  oracle : Nat → Option RawResp

/-- The retry loop (openai_client.py lines 80-296) with `max_retries = 2`:
`fuel` counts the remaining attempts and `made` the chat calls already made.
An API exception or a `TypeError` escaping the parse consumes an attempt;
exhaustion returns the fallback lesson, still cached. -/
def genAttempts (theme norm : String) (now : Nat) (cache : LessonCache)
    (oracle : Nat → Option RawResp) : Nat → Nat → LessonData × LessonCache × Nat
  | 0, made =>
    let fb := getFallbackLesson theme
    (fb, cacheInsert cache norm now fb, made)
  | fuel + 1, made =>
    match oracle made with
    | none => genAttempts theme norm now cache oracle fuel (made + 1)
    | some resp =>
      match parseAttempt theme resp with
      | .error _ => genAttempts theme norm now cache oracle fuel (made + 1)
      | .ok d => (d, cacheInsert cache norm now d, made + 1)

/-- `generate_lesson_content(theme)` at time `now` with cache state `cache`:
returns the lesson, the new cache, and the number of chat-completion calls
made.  Cache probe first (stale entries are bypassed, not deleted); then the
`DISABLE_OPENAI` short-circuit (which does **not** cache); then up to two
generation attempts. -/
def generateLessonContent (env : GenEnv) (cache : LessonCache) (now : Nat) (theme : String) :
    LessonData × LessonCache × Nat :=
  let themeLower := pyStrip (pyLower theme)
  let fresh :=
    match cacheLookup cache themeLower with
    | some (ts, content) => if now - ts < cacheTtl then some content else none
    | none => none
  match fresh with
  | some content => (content, cache, 0)
  | none =>
    if env.disableOpenAI then (getFallbackLesson theme, cache, 0)
    else genAttempts theme themeLower now cache env.oracle 2 0

/-! ## Delivery-side models (`handlers.py`) -/

/-- Modelled from the spec: the image manager (`app.api.image_manager`) is not
among the sources; spec §4.2 gives its result contract — an image result
carries either a URL or a local file path as locator, plus an optional
attribution.  `send_lesson` only tests `"url" in image_data`,
`"file" in image_data` and `"attribution" in image_data`. -/
inductive ImgSource where
  | url (u : String)
  | file (path : String)

/-- Modelled from the spec: an image-manager result (spec §4.2 `ImageResult`). -/
structure ImgData where
  source : ImgSource
  attribution : Option String

/-- A transport message delivered to the recipient. -/
inductive Msg where
  | photo (src : ImgSource) (caption : String)
  | text (s : String)

mutual

/-- Python `str(x)` for the JSON values we model. -/
def pyStr : JVal → String
  | .jstr s => s
  | .jint n => toString n
  | .jlist l => "[" ++ pyStrItems l ++ "]"
  | .jother => "None"

/-- Elements of a Python list display (`repr`-style rendering, as `str` does
for list elements). -/
def pyStrItems : List JVal → String
  | [] => ""
  | [.jstr s] => "\x27" ++ s ++ "\x27"
  | [v] => pyStr v
  | .jstr s :: vs => "\x27" ++ s ++ "\x27" ++ ", " ++ pyStrItems vs
  | v :: vs => pyStr v ++ ", " ++ pyStrItems vs

end

/-- handlers.py lines 384-432: the required-field check of `send_lesson`.
Every lesson produced by `generate_lesson_content` has all seven keys,
`quiz_options` already a list and `correct_option_index` already an `int`, so
the only reachable coercions are `str()` on the string-typed fields. -/
def coerceLessonFields (d : LessonData) : LessonData :=
  let fixStr : JVal → JVal := fun v =>
    match v with
    | .jstr s => .jstr s
    | v => .jstr (pyStr v)
  let fixContent : JVal → JVal := fun v =>
    match v with
    | .jstr s => .jstr s
    | .jlist l => .jlist l
    | v => .jstr (pyStr v)
  { d with
    title := fixStr d.title
    content := fixContent d.content
    quiz_question := fixStr d.quiz_question
    explanation := fixStr d.explanation }

/-- The string content of a string-typed JSON value. -/
def JVal.asStr : JVal → String
  | .jstr s => s
  | _ => ""

/-- All elements of a list value as strings, `none` if any is not a string
(string concatenation with a non-string raises `TypeError` in the join loop
of handlers.py lines 491-499). -/
def asStrList : List JVal → Option (List String)
  | [] => some []
  | .jstr s :: vs => (asStrList vs).map (s :: ·)
  | _ => none

/-- handlers.py lines 518-521: on a literal-eval failure the brackets are
stripped and quote-comma glue replaced by paragraph breaks. -/
def stripArrayChars (s : String) : String :=
  pyReplace (pyReplace (String.mk ((s.toList.drop 1).dropLast)) "\x27, \x27" "\n\n") "\x27" ""

/-- handlers.py lines 487-521: normalize `content` to one string — join list
content with blank lines, re-parse a string shaped like `[...]` (keeping the
bracket-stripping fallback), fail (`TypeError`, caught by the outer handler)
when a list holds non-strings. -/
def normalizeContentStr (v : JVal) : Option String :=
  match v with
  | .jlist l => (asStrList l).map (String.intercalate "\n\n")
  | .jstr s =>
    if s.toList.head? == some '[' && s.toList.getLast? == some ']' then
      match pyLiteralEvalStrList s with
      | some l => some (String.intercalate "\n\n" l)
      | none => some (stripArrayChars s)
    else some s
  | _ => none

/-! ### `send_large_text_in_chunks` (handlers.py lines 953-1028) -/

/-- A successful literal match consumes exactly the literal. -/
theorem matchLit_append : ∀ {p s r : List Char}, matchLit p s = some r → s = p ++ r
  | [], s, r, h => by simpa [matchLit] using h
  | _ :: _, [], _, h => by simp [matchLit] at h
  | p :: ps, c :: cs, r, h => by
    by_cases hc : c = p
    · simp only [matchLit, if_pos hc] at h
      have := matchLit_append h
      simp [hc, this]
    · simp [matchLit, hc] at h

/-- Python `str.split(sep)` on character lists: split at every occurrence of
`sep`, left to right, keeping empty pieces.  The fuel starts at the input
length, which suffices for a non-empty `sep`. -/
def pySplitAux (sep : List Char) : Nat → List Char → List Char → List (List Char)
  | 0, acc, _ => [acc.reverse]
  | _, acc, [] => [acc.reverse]
  | fuel + 1, acc, c :: cs =>
    match matchLit sep (c :: cs) with
    | some rest => acc.reverse :: pySplitAux sep fuel [] rest
    | none => pySplitAux sep fuel (c :: acc) cs

/-- Python `text.split("\n\n")`. -/
def pySplitPars (s : String) : List String :=
  (pySplitAux ['\n', '\n'] s.toList.length [] s.toList).map String.mk

/-- handlers.py lines 998-1001: hard-split an oversized paragraph into
`maxSize`-character slices (`paragraph[i:i + max_chunk_size]`); fuelled by the
input length, which suffices for any positive `maxSize`. -/
def hardSplitAux (maxSize : Nat) : Nat → List Char → List (List Char)
  | 0, _ => []
  | _, [] => []
  | fuel + 1, l => l.take maxSize :: hardSplitAux maxSize fuel (l.drop maxSize)

/-- The slices of one oversized paragraph. -/
def hardSplit (maxSize : Nat) (s : String) : List String :=
  (hardSplitAux maxSize s.toList.length s.toList).map String.mk

/-- handlers.py lines 979-1006: the chunk-building loop over the paragraphs,
with `cur` the `current_chunk` accumulator. -/
def buildChunksAux (maxSize : Nat) : List String → String → List String
  | [], cur => if cur = "" then [] else [cur]
  | p :: ps, cur =>
    if cur.length + p.length + 2 ≤ maxSize then
      if cur = "" then buildChunksAux maxSize ps p
      else buildChunksAux maxSize ps (cur ++ "\n\n" ++ p)
    else
      (if cur = "" then [] else [cur]) ++
        (if p.length ≤ maxSize then buildChunksAux maxSize ps p
         else hardSplit maxSize p ++ buildChunksAux maxSize ps "")

/-- `send_large_text_in_chunks(bot, chat_id, text)` with the default
`max_chunk_size = 4000` (no caller passes another value): the chunk texts it
attempts to send, in order.  Every transport failure inside it is caught
(lines 964-976 and 1018-1028: a plain-text retry, then a log), so the
function never raises. -/
def sendLargeTextInChunks (text : String) : List String :=
  if text.length ≤ 4000 then [text]
  else buildChunksAux 4000 (pySplitPars text) ""

/-! ### The delivery formatter inside `send_lesson` (handlers.py 484-699)

`send_lesson` never actually reaches this code (see `sendLesson` below), but
the formatting logic itself is complete in the source and is the subject of
the formatter claims; it is modelled here on the happy transport path (photo
and message sends succeed). -/

/-- handlers.py line 485 and 535: `f"✨ <b>\x7bclean_title\x7d</b> ✨\n\n"`
with asterisks removed from the title. -/
def messageTitleOf (d : LessonData) : String :=
  "✨ <b>" ++ pyReplace d.title.asStr "*" "" ++ "</b> ✨\n\n"

/-- handlers.py line 539: the decorative separator appended to the content. -/
def separatorLine : String := "━━━━━━━━━━━━━━━━━━━━━━\n\n"

/-- handlers.py lines 523-532: sanitized content with a leading newline. -/
def contentBlockOf (d : LessonData) : Option String :=
  (normalizeContentStr d.content).map fun c0 =>
    let c1 := sanitizeHtmlForTelegram c0
    if c1.toList.head? == some '\n' then c1 else "\n" ++ c1

/-- handlers.py lines 536-539: `f"\x7bcontent\x7d\n\n"` plus the separator. -/
def messageContentOf (d : LessonData) : Option String :=
  (contentBlockOf d).map fun c => c ++ "\n\n" ++ separatorLine

/-- handlers.py lines 542-544: attribution block when present and non-empty. -/
def attributionOf (image : Option ImgData) : String :=
  match image with
  | some img =>
    match img.attribution with
    | some a => if a = "" then "" else "📸 <i>" ++ a ++ "</i>\n\n"
    | none => ""
  | none => ""

/-- The messages the formatter emits for a lesson, given a healthy transport
(handlers.py lines 534-582 for the image path, 679-699 for the text path):
caption split against the 1024 ceiling, continuation messages against the
4000 ceiling.  `none` models the `TypeError` crash on list content holding a
non-string (caught only by the function-wide handler). -/
def formatDelivery (d0 : LessonData) (image : Option ImgData) : Option (List Msg) :=
  let d := coerceLessonFields d0
  match messageContentOf d with
  | none => none
  | some messageContent =>
    let messageTitle := messageTitleOf d
    let attribution := attributionOf image
    let full := messageTitle ++ messageContent ++ attribution
    some (match image with
      | some img =>
        if full.length ≤ 1024 then [Msg.photo img.source full]
        else
          let remaining := messageContent ++ attribution
          Msg.photo img.source messageTitle ::
            (if 4000 < remaining.length then (sendLargeTextInChunks remaining).map Msg.text
             else [Msg.text remaining])
      | none =>
        let fullMessage := messageTitle ++ messageContent
        if 4000 < fullMessage.length then
          Msg.text messageTitle :: (sendLargeTextInChunks messageContent).map Msg.text
        else [Msg.text fullMessage])

/-! ### `send_lesson` itself (handlers.py 344-775) -/

/-- The collaborator outcomes of one `send_lesson` call: the acquired lesson,
the image-manager result, and whether each kind of transport send would
succeed. -/
structure SendEnv where
  lesson : LessonData
  theme : String
  imageData : Option ImgData
  photoOk : Bool
  textOk : Bool
  pollOk : Bool

/-- The body of `send_lesson` up to the point it fails.  Lines 347-479 make no
transport call (theme choice, `generate_lesson_content`, image fetch inside
its own try/except, history summary).  Line 481 then runs
`from app.utils.persistence import run_db_operation_threadsafe`; the
persistence module (app/utils/persistence.py, lines 1-291) defines no such
name, so this import raises `ImportError` on every call, inside the
function-wide `try` opened at line 346.  No message, photo or poll has been
sent at that point, and the formatting and transport code below line 484
(modelled by `formatDelivery`) is unreachable. -/
def sendLessonBody (_env : SendEnv) : List Msg × Except Unit LessonData :=
  ([], .error ())

/-- `send_lesson` (handlers.py 344-775): the function-wide handler at lines
773-775 catches everything the body raises, logs, and returns `None`; the
pair is the messages delivered to the recipient and the Python return value. -/
def sendLesson (env : SendEnv) : List Msg × Option LessonData :=
  ((sendLessonBody env).1, (sendLessonBody env).2.toOption)

/-! ### `LessonScheduler.send_scheduled_lesson`, subscription mode
(scheduler.py lines 82-107) -/

/-- One scheduled batch over the subscriber list: for each subscriber the loop
awaits `send_lesson` inside `try`; since `send_lesson` never raises (it
returns `None` on failure instead), the `except` branch that would record the
subscriber in `failed_subscribers` is unreachable and `success_count` is
incremented for every subscriber.  Afterwards each recorded failure would be
probed with `get_chat` and removed when unreachable.  Returns
`(success_count, failed_subscribers, removed)`. -/
def sendScheduledLesson (subs : List Nat) (envOf : Nat → SendEnv)
    (getChatOk : Nat → Bool) : Nat × List Nat × List Nat :=
  let step := fun (acc : Nat × List Nat) (u : Nat) =>
    match sendLesson (envOf u) with
    | (_, _) => (acc.1 + 1, acc.2)
  let r := subs.foldl step (0, [])
  let removed := r.2.filter fun u => !getChatOk u
  (r.1, r.2, removed)

/-! ### `on_poll_answer` and the quiz-session dict (handlers.py 33-35,
1031-1107) -/

/-- One `active_quizzes` entry (handlers.py lines 746-753). -/
structure QuizData where
  correct_option : Int
  explanation : String
  theme : String
  question : String
  options : List String
  option_explanations : List String

/-- The `active_quizzes` dict: poll id to quiz data (unique keys). -/
abbrev QuizMap := List (String × QuizData)

/-- Dict lookup for `active_quizzes`. -/
def quizLookup : QuizMap → String → Option QuizData
  | [], _ => none
  | (k, v) :: rest, key => if k = key then some v else quizLookup rest key

/-- `del active_quizzes[poll_id]`. -/
def quizErase (m : QuizMap) (pollId : String) : QuizMap :=
  m.filter fun e => e.1 != pollId

/-- The five pre-defined feedback lines for a correct answer (lines 1054-1060). -/
def correctFeedbacks : List String :=
  ["🎉 Well done! That\x27s correct!",
   "👏 Excellent choice! You got it right!",
   "✨ Great job! Your answer is correct!",
   "🌟 Perfect! You\x27ve mastered this concept!",
   "🏆 Correct! You\x27re making excellent progress!"]

/-- The five pre-defined feedback lines for a wrong answer (lines 1062-1068). -/
def incorrectFeedbacks : List String :=
  ["📚 Good attempt! Learning comes from trying.",
   "💪 Keep going! Every question helps you improve.",
   "🔍 Almost there! Review the explanation below.",
   "📝 Practice makes perfect! Try more questions to build your skills.",
   "💡 Not quite, but that\x27s how we learn! Check out the explanation."]

/-- The simple message of the fallback send (handlers.py line 1101). -/
def simpleQuizReply : String :=
  "Thanks for answering! Keep practicing to improve your UI/UX skills."

/-- `on_poll_answer` (handlers.py lines 1031-1107) on state `m`: `optionIds`
is `answer.option_ids`, `pick` selects the `random.choice` feedback line,
`sendOk` is the outcome of the feedback `send_message` and `fallbackOk` of the
simple-reply `send_message` inside the handler's `except` clause.  Returns the
message delivered to the user (if any) and the new state.  The entry is
deleted only after a send succeeds (lines 1093 and 1105); when both sends
fail the session entry survives.  With a `None` selected option and a
non-empty explanation list, `len(option_explanations) > selected_option`
raises `TypeError`, which lands in the same `except` clause. -/
def onPollAnswer (m : QuizMap) (pollId : String) (optionIds : List Nat) (pick : Nat)
    (sendOk fallbackOk : Bool) : Option String × QuizMap :=
  match quizLookup m pollId with
  | none => (none, m)
  | some qd =>
    let selected : Option Nat := optionIds.head?
    let isCorrect : Bool :=
      match selected with
      | some s => (s : Int) == qd.correct_option
      | none => false
    let feedback := (if isCorrect then correctFeedbacks else incorrectFeedbacks).getD (pick % 5) ""
    let fallbackExplanation : String :=
      let e := qd.explanation
      let choseWrong : Bool :=
        match selected with
        | some s => (s : Int) != qd.correct_option
        | none => true
      if choseWrong && e != "" then
        let correctText :=
          if 0 ≤ qd.correct_option ∧ qd.correct_option < qd.options.length then
            qd.options.getD qd.correct_option.toNat ""
          else "another option"
        "The correct answer was: " ++ correctText ++ "\n\n" ++ e
      else e
    let explanationE : Except Unit String :=
      if qd.option_explanations.isEmpty then .ok fallbackExplanation
      else
        match selected with
        | none => .error ()
        | some s =>
          if s < qd.option_explanations.length then .ok (qd.option_explanations.getD s "")
          else .ok fallbackExplanation
    match explanationE with
    | .ok expl =>
      if sendOk then (some (feedback ++ "\n\n" ++ expl), quizErase m pollId)
      else if fallbackOk then (some simpleQuizReply, quizErase m pollId)
      else (none, m)
    | .error _ =>
      if fallbackOk then (some simpleQuizReply, quizErase m pollId)
      else (none, m)

/-! ## Helper lemmas about the fallback extractor -/

theorem fallbackOptions_length_ge_two (c : String) : 2 ≤ (fallbackOptions c).length := by
  unfold fallbackOptions
  by_cases h : (recoveredList "quiz_options" c).length < 2
  · simp [h, placeholderOptions]
  · simp [h]
    omega

theorem fallbackIndex_lt (c : String) : fallbackIndex c < (fallbackOptions c).length := by
  unfold fallbackIndex
  by_cases h : (fallbackOptions c).length ≤ (extractIntField "correct_option_index" c).getD 0
  · simp [h]
    have := fallbackOptions_length_ge_two c
    omega
  · simp [h]
    omega

theorem fallbackOptionExplanations_length (theme c e : String) :
    (fallbackOptions c).length ≤ (fallbackOptionExplanations theme c e).length ∧
      ((recoveredList "option_explanations" c).length < (fallbackOptions c).length →
        (fallbackOptionExplanations theme c e).length = (fallbackOptions c).length) := by
  unfold fallbackOptionExplanations
  by_cases h : (recoveredList "option_explanations" c).length < (fallbackOptions c).length
  · simp [h]
  · simp [h]
    omega

theorem regexExtract_quiz_options (theme raw : String) :
    (regexExtract theme raw).quiz_options = (fallbackOptions raw).map JVal.jstr := rfl

theorem regexExtract_index (theme raw : String) :
    (regexExtract theme raw).correct_option_index = (fallbackIndex raw : Int) := rfl

theorem regexExtract_option_explanations (theme raw : String) :
    (regexExtract theme raw).option_explanations =
      JVal.jlist ((fallbackOptionExplanations theme raw
        ((extractQuotedField "explanation" raw).getD
          ("This is the right answer for " ++ theme ++ "."))).map JVal.jstr) := rfl

/-- Shared: a failed strict parse goes directly to the regex fallback
(openai_client.py line 199: the `except` around the strict stage). -/
theorem parseAttempt_of_parse_fail {theme : String} {resp : RawResp}
    (h : resp.parsed = none) :
    parseAttempt theme resp = Except.ok (regexExtract theme resp.cleaned) := by
  unfold parseAttempt
  rw [h]

/-! ## Concrete generator responses used as counterexamples -/

/-- A syntactically valid JSON response whose `correct_option_index` (5) is
out of range for its two options. -/
def rawOutOfRange : String :=
  "\x7b\"title\": \"T\", \"content\": \"C\", \"quiz_question\": \"Q\", \"quiz_options\": [\"A\", \"B\"], \"correct_option_index\": 5, \"explanation\": \"E\"\x7d"

/-- `json.loads rawOutOfRange`. -/
def objOutOfRange : JsonObj :=
  { title := some (.jstr "T"), content := some (.jstr "C"),
    quiz_question := some (.jstr "Q"),
    quiz_options := some (.jlist [.jstr "A", .jstr "B"]),
    correct_option_index := some (.jint 5),
    explanation := some (.jstr "E"), option_explanations := none }

def respOutOfRange : RawResp := ⟨rawOutOfRange, some objOutOfRange⟩

/-- A malformed response carrying two options but three explanation strings. -/
def rawSurplusExpl : String :=
  "\"quiz_options\": [\"A\", \"B\"], \"option_explanations\": [\"x\", \"y\", \"z\"]"

/-- A malformed response with two `"content"` keys; strict JSON parse fails. -/
def rawTwoContent : String :=
  "xx \"content\": \"A\" yy \"content\": \"B\" zz"

def respTwoContent : RawResp := ⟨rawTwoContent, none⟩

/-- A response whose raw text duplicates the `quiz_options` key; `json.loads`
keeps the last occurrence — a single option — and the strict parse then
succeeds. -/
def rawDupKey : String :=
  "\x7b\"title\": \"T\", \"content\": \"C\", \"quiz_question\": \"Q\", \"quiz_options\": [\"A\", \"B\"], \"quiz_options\": [\"A\"], \"correct_option_index\": 0, \"explanation\": \"E\"\x7d"

/-- `json.loads rawDupKey` (duplicate key: last value wins). -/
def objDupKey : JsonObj :=
  { title := some (.jstr "T"), content := some (.jstr "C"),
    quiz_question := some (.jstr "Q"),
    quiz_options := some (.jlist [.jstr "A"]),
    correct_option_index := some (.jint 0),
    explanation := some (.jstr "E"), option_explanations := none }

def respDupKey : RawResp := ⟨rawDupKey, some objDupKey⟩

/-- A valid JSON response whose `correct_option_index` is a list: `int()` on
it raises `TypeError`, which the strict-stage `except` does not catch. -/
def objListIndex : JsonObj :=
  { title := some (.jstr "T"), content := some (.jstr "C"),
    quiz_question := some (.jstr "Q"),
    quiz_options := some (.jlist [.jstr "A", .jstr "B"]),
    correct_option_index := some (.jlist [.jint 1]),
    explanation := some (.jstr "E"), option_explanations := none }

def respListIndex : RawResp := ⟨"irrelevant", some objListIndex⟩

/-! ## Claim C4 -/

/-- Claim C4: the delivery sanitizer is claimed to convert paired `**`/`*`
markers into matching open **and close** tags.  In the code both
`str.replace` calls rewrite every occurrence to the opening tag — the second
`.replace("**", "</b>")` / `.replace("*", "</i>")` finds nothing left — so
`**bold**` becomes `<b>bold<b>` and `*italic*` becomes `<i>italic<i>`; only
the newline-collapsing half of the claim holds. -/
theorem sanitize_emphasis_markers_unbalanced :
    sanitizeHtmlForTelegram "**bold**" = "<b>bold<b>" ∧
    sanitizeHtmlForTelegram "*italic*" = "<i>italic<i>" ∧
    sanitizeHtmlForTelegram "a\n\n\n\n\nb" = "a\n\nb" :=
  ⟨rfl, rfl, rfl⟩

/-! ## Claim C2 -/

/-- Claim C2 counterexample: the strict-JSON path accepts
`correct_option_index = 5` with two options and returns it unclamped, and the
fallback keeps three recovered explanation strings for two options, so
neither `0 ≤ index < len(options)` nor
`len(option_explanations) = len(options)` holds of every accepted output. -/
theorem strict_index_unclamped_and_surplus_explanations :
    (parseAttempt "Typography" respOutOfRange).toOption.map
      (fun d => (d.correct_option_index, d.quiz_options.length)) = some (5, 2) ∧
    (regexExtract "t" rawSurplusExpl).quiz_options.length = 2 ∧
    (regexExtract "t" rawSurplusExpl).option_explanations.listLen = some 3 :=
  ⟨rfl, rfl, rfl⟩

/-- Claim C2 (amended): every lesson built by the field-extraction fallback
has at least two options, a `correct_option_index` with
`0 ≤ index < len(options)` (an index at or past the count is clamped to 0;
the `\d+` pattern cannot extract a negative one), and
`len(option_explanations) ≥ len(options)`, with equality whenever fewer
explanation strings than options were recovered; the strict-JSON path imposes
none of these bounds. -/
theorem fallback_lesson_bounds (theme raw : String) :
    2 ≤ (regexExtract theme raw).quiz_options.length ∧
    0 ≤ (regexExtract theme raw).correct_option_index ∧
    (regexExtract theme raw).correct_option_index <
      ((regexExtract theme raw).quiz_options.length : Int) ∧
    ∃ n, (regexExtract theme raw).option_explanations.listLen = some n ∧
      (regexExtract theme raw).quiz_options.length ≤ n ∧
      ((recoveredList "option_explanations" raw).length < (fallbackOptions raw).length →
        n = (regexExtract theme raw).quiz_options.length) := by
  refine ⟨?_, ?_, ?_, ?_⟩
  · rw [regexExtract_quiz_options, List.length_map]
    exact fallbackOptions_length_ge_two raw
  · rw [regexExtract_index]
    exact Int.ofNat_nonneg _
  · rw [regexExtract_index, regexExtract_quiz_options, List.length_map]
    exact_mod_cast fallbackIndex_lt raw
  · refine ⟨(fallbackOptionExplanations theme raw
      ((extractQuotedField "explanation" raw).getD
        ("This is the right answer for " ++ theme ++ "."))).length, ?_, ?_, ?_⟩
    · rw [regexExtract_option_explanations]
      simp [JVal.listLen]
    · rw [regexExtract_quiz_options, List.length_map]
      exact (fallbackOptionExplanations_length theme raw _).1
    · intro h
      rw [regexExtract_quiz_options, List.length_map]
      exact (fallbackOptionExplanations_length theme raw _).2 h

/-- Witness for `fallback_lesson_bounds` at a concrete malformed response. -/
theorem fallback_lesson_bounds_witness :
    2 ≤ (regexExtract "t" "junk").quiz_options.length ∧
    0 ≤ (regexExtract "t" "junk").correct_option_index ∧
    (regexExtract "t" "junk").correct_option_index <
      ((regexExtract "t" "junk").quiz_options.length : Int) ∧
    ∃ n, (regexExtract "t" "junk").option_explanations.listLen = some n ∧
      (regexExtract "t" "junk").quiz_options.length ≤ n ∧
      ((recoveredList "option_explanations" "junk").length < (fallbackOptions "junk").length →
        n = (regexExtract "t" "junk").quiz_options.length) :=
  fallback_lesson_bounds "t" "junk"

/-! ## Claim C3 -/

/-- Claim C3 counterexample: on a response with two `"content"` keys that
fails strict JSON parsing, the parser's content is the **first** extracted
occurrence `"A"`, not a concatenation of all occurrences — no
concatenate-and-reparse stage exists in the code. -/
theorem two_content_keys_first_occurrence_wins :
    (parseAttempt "t" respTwoContent).toOption.map (fun d => d.content) =
      some (JVal.jstr "A") := rfl

/-- Claim C3 (amended): when the strict JSON parse fails, the parser proceeds
directly to field-by-field pattern extraction — there is no stage that
concatenates multiple content-like keys and retries a strict parse — and on a
response with several `"content"` keys the extraction captures the first
occurrence. -/
theorem strict_fail_goes_directly_to_field_extraction :
    (∀ theme resp, resp.parsed = none →
      parseAttempt theme resp = Except.ok (regexExtract theme resp.cleaned)) ∧
    extractQuotedField "content" rawTwoContent = some "A" :=
  ⟨fun _ _ h => parseAttempt_of_parse_fail h, rfl⟩

/-- Witness for `strict_fail_goes_directly_to_field_extraction`. -/
theorem strict_fail_goes_directly_witness :
    parseAttempt "t" respTwoContent = Except.ok (regexExtract "t" rawTwoContent) :=
  strict_fail_goes_directly_to_field_extraction.1 "t" respTwoContent rfl

/-! ## Claim C6 -/

/-- Claim C6 counterexample: a duplicated-key response (`quiz_options` twice;
`json.loads` keeps the last, single-option value) passes the strict path and
is returned with one option — the fewer-than-2 placeholder substitution lives
only in the fallback extractor. -/
theorem dup_key_response_returns_single_option :
    (parseAttempt "t" respDupKey).toOption.map (fun d => d.quiz_options.length) =
      some 1 := rfl

/-- Claim C6 (amended): a response whose strict parse fails is always
repaired by the total fallback extractor, which returns at least two options
and substitutes the fixed 4-option placeholder set when fewer than two are
recovered; but a malformed response that still strict-parses (duplicated key,
last occurrence winning) keeps its option count — possibly below two — and a
non-`int`-coercible `correct_option_index` raises `TypeError` past the parse
stage into the retry loop. -/
theorem fallback_never_fails_and_floors_options :
    (∀ theme resp, resp.parsed = none →
      ∃ d, parseAttempt theme resp = Except.ok d ∧ 2 ≤ d.quiz_options.length ∧
        ((recoveredList "quiz_options" resp.cleaned).length < 2 →
          d.quiz_options = placeholderOptions.map JVal.jstr)) ∧
    parseAttempt "t" respListIndex = Except.error () := by
  constructor
  · intro theme resp h
    refine ⟨regexExtract theme resp.cleaned, parseAttempt_of_parse_fail h, ?_, ?_⟩
    · rw [regexExtract_quiz_options, List.length_map]
      exact fallbackOptions_length_ge_two resp.cleaned
    · intro hlt
      rw [regexExtract_quiz_options]
      unfold fallbackOptions
      simp [hlt]
  · rfl

/-- Witness for `fallback_never_fails_and_floors_options`. -/
theorem fallback_never_fails_witness :
    ∃ d, parseAttempt "t" respTwoContent = Except.ok d ∧ 2 ≤ d.quiz_options.length ∧
      ((recoveredList "quiz_options" rawTwoContent).length < 2 →
        d.quiz_options = placeholderOptions.map JVal.jstr) :=
  fallback_never_fails_and_floors_options.1 "t" respTwoContent rfl

/-! ## Helper lemmas about the content cache and the retry loop -/

theorem cacheLookup_insert (c : LessonCache) (k : String) (ts : Nat) (d : LessonData) :
    cacheLookup (cacheInsert c k ts d) k = some (ts, d) := by
  induction c with
  | nil => simp [cacheInsert, cacheLookup]
  | cons e rest ih =>
    obtain ⟨k', v⟩ := e
    by_cases h : k' = k
    · simp [cacheInsert, h, cacheLookup]
    · simp [cacheInsert, h, cacheLookup, ih]

theorem genAttempts_spec (theme norm : String) (now : Nat) (cache : LessonCache)
    (oracle : Nat → Option RawResp) :
    ∀ fuel made,
      (genAttempts theme norm now cache oracle fuel made).2.1 =
        cacheInsert cache norm now (genAttempts theme norm now cache oracle fuel made).1 ∧
      (genAttempts theme norm now cache oracle fuel made).2.2 ≤ made + fuel ∧
      (1 ≤ fuel → made + 1 ≤ (genAttempts theme norm now cache oracle fuel made).2.2) := by
  intro fuel
  induction fuel with
  | zero => intro made; simp [genAttempts]
  | succ n ih =>
    intro made
    rw [genAttempts]
    cases h : oracle made with
    | none =>
      dsimp only
      refine ⟨(ih (made + 1)).1, ?_, fun _ => ?_⟩
      · have := (ih (made + 1)).2.1
        omega
      · rcases Nat.eq_zero_or_pos n with hn | hn
        · subst hn
          simp [genAttempts]
        · have := (ih (made + 1)).2.2 hn
          omega
    | some resp =>
      dsimp only
      cases hp : parseAttempt theme resp with
      | error e =>
        dsimp only
        refine ⟨(ih (made + 1)).1, ?_, fun _ => ?_⟩
        · have := (ih (made + 1)).2.1
          omega
        · rcases Nat.eq_zero_or_pos n with hn | hn
          · subst hn
            simp [genAttempts]
          · have := (ih (made + 1)).2.2 hn
            omega
      | ok d =>
        dsimp only
        exact ⟨rfl, by omega, fun _ => by omega⟩

/-- Cache miss with generation enabled: the retry loop runs. -/
theorem generate_on_miss (env : GenEnv) (cache : LessonCache) (now : Nat) (theme : String)
    (hd : env.disableOpenAI = false)
    (hmiss : cacheLookup cache (pyStrip (pyLower theme)) = none) :
    generateLessonContent env cache now theme =
      genAttempts theme (pyStrip (pyLower theme)) now cache env.oracle 2 0 := by
  unfold generateLessonContent
  dsimp only
  rw [hmiss, hd]
  simp

/-- Fresh cache hit: the entry is returned with no generation call. -/
theorem generate_on_hit (env : GenEnv) (cache : LessonCache) (now ts : Nat) (theme : String)
    (d : LessonData)
    (hhit : cacheLookup cache (pyStrip (pyLower theme)) = some (ts, d))
    (hfresh : now - ts < cacheTtl) :
    generateLessonContent env cache now theme = (d, cache, 0) := by
  unfold generateLessonContent
  dsimp only
  rw [hhit]
  simp [hfresh]

/-- Stale cache entry: the lookup is bypassed and the retry loop runs. -/
theorem generate_on_stale (env : GenEnv) (cache : LessonCache) (now ts : Nat) (theme : String)
    (d : LessonData)
    (hd : env.disableOpenAI = false)
    (hhit : cacheLookup cache (pyStrip (pyLower theme)) = some (ts, d))
    (hstale : cacheTtl ≤ now - ts) :
    generateLessonContent env cache now theme =
      genAttempts theme (pyStrip (pyLower theme)) now cache env.oracle 2 0 := by
  unfold generateLessonContent
  dsimp only
  rw [hhit, hd]
  simp [Nat.not_lt_of_le hstale]

/-! ## Claim C5 -/

/-- An oracle whose first chat call raises and whose second returns an
unparseable response. -/
def oracleOneFailure : Nat → Option RawResp :=
  fun n => if n = 0 then none else some ⟨"junk", none⟩

/-- Claim C5 counterexample: two `generate_lesson_content` calls for the same
subject within the TTL window return the identical lesson, but they trigger
two generation calls, not at most one — a transport failure on the first
call's first attempt consumes a retry, and each retry is its own
chat-completion call. -/
theorem two_calls_within_ttl_make_two_generation_calls :
    (generateLessonContent ⟨false, oracleOneFailure⟩ [] 100 "Color Theory").2.2 = 2 ∧
    (generateLessonContent ⟨false, oracleOneFailure⟩
      (generateLessonContent ⟨false, oracleOneFailure⟩ [] 100 "Color Theory").2.1
      200 "Color Theory").2.2 = 0 ∧
    (generateLessonContent ⟨false, oracleOneFailure⟩
      (generateLessonContent ⟨false, oracleOneFailure⟩ [] 100 "Color Theory").2.1
      200 "Color Theory").1 =
      (generateLessonContent ⟨false, oracleOneFailure⟩ [] 100 "Color Theory").1 :=
  ⟨rfl, rfl, rfl⟩

/-- Claim C5 (amended): with generation enabled and no prior entry for the
normalized subject, two calls whose subjects normalize equally (case-fold and
trim), the second within the TTL of the first, return the identical lesson;
the second call makes no generation call and the first at most
`max_retries = 2`.  Once `now − timestamp ≥ TTL` the cached entry is bypassed
on lookup: the next call generates again (at least one chat call). -/
theorem cache_idempotence_and_stale_bypass :
    (∀ (env : GenEnv) (cache : LessonCache) (t1 t2 : Nat) (theme1 theme2 : String),
      env.disableOpenAI = false →
      pyStrip (pyLower theme2) = pyStrip (pyLower theme1) →
      cacheLookup cache (pyStrip (pyLower theme1)) = none →
      t2 - t1 < cacheTtl →
      (generateLessonContent env (generateLessonContent env cache t1 theme1).2.1 t2 theme2).1 =
        (generateLessonContent env cache t1 theme1).1 ∧
      (generateLessonContent env (generateLessonContent env cache t1 theme1).2.1 t2 theme2).2.2
        = 0 ∧
      (generateLessonContent env cache t1 theme1).2.2 ≤ 2) ∧
    (∀ (env : GenEnv) (cache : LessonCache) (t1 t2 : Nat) (theme : String),
      env.disableOpenAI = false →
      cacheLookup cache (pyStrip (pyLower theme)) = none →
      cacheTtl ≤ t2 - t1 →
      1 ≤ (generateLessonContent env
        (generateLessonContent env cache t1 theme).2.1 t2 theme).2.2) := by
  constructor
  · intro env cache t1 t2 theme1 theme2 hd hnorm hmiss httl
    rw [generate_on_miss env cache t1 theme1 hd hmiss]
    have hspec := genAttempts_spec theme1 (pyStrip (pyLower theme1)) t1 cache env.oracle 2 0
    have hhit : cacheLookup
        (genAttempts theme1 (pyStrip (pyLower theme1)) t1 cache env.oracle 2 0).2.1
        (pyStrip (pyLower theme2)) =
        some (t1, (genAttempts theme1 (pyStrip (pyLower theme1)) t1 cache env.oracle 2 0).1) := by
      rw [hnorm, hspec.1]
      exact cacheLookup_insert _ _ _ _
    rw [generate_on_hit env _ t2 t1 theme2 _ hhit httl]
    refine ⟨rfl, rfl, ?_⟩
    have := hspec.2.1
    omega
  · intro env cache t1 t2 theme hd hmiss hstale
    rw [generate_on_miss env cache t1 theme hd hmiss]
    have hspec := genAttempts_spec theme (pyStrip (pyLower theme)) t1 cache env.oracle 2 0
    have hhit : cacheLookup
        (genAttempts theme (pyStrip (pyLower theme)) t1 cache env.oracle 2 0).2.1
        (pyStrip (pyLower theme)) =
        some (t1, (genAttempts theme (pyStrip (pyLower theme)) t1 cache env.oracle 2 0).1) := by
      rw [hspec.1]
      exact cacheLookup_insert _ _ _ _
    rw [generate_on_stale env _ t2 t1 theme _ hd hhit hstale]
    have h2 := (genAttempts_spec theme (pyStrip (pyLower theme)) t2
      (genAttempts theme (pyStrip (pyLower theme)) t1 cache env.oracle 2 0).2.1
      env.oracle 2 0).2.2 (by omega)
    omega

/-- Witness for `cache_idempotence_and_stale_bypass` at concrete subjects
that normalize equally, at times 0 and 10 (fresh) and 0 and 100000 (stale). -/
theorem cache_idempotence_witness :
    ((generateLessonContent ⟨false, oracleOneFailure⟩
        (generateLessonContent ⟨false, oracleOneFailure⟩ [] 0 "Color Theory").2.1
        10 "  COLOR THEORY ").1 =
      (generateLessonContent ⟨false, oracleOneFailure⟩ [] 0 "Color Theory").1 ∧
     (generateLessonContent ⟨false, oracleOneFailure⟩
        (generateLessonContent ⟨false, oracleOneFailure⟩ [] 0 "Color Theory").2.1
        10 "  COLOR THEORY ").2.2 = 0 ∧
     (generateLessonContent ⟨false, oracleOneFailure⟩ [] 0 "Color Theory").2.2 ≤ 2) ∧
    1 ≤ (generateLessonContent ⟨false, oracleOneFailure⟩
      (generateLessonContent ⟨false, oracleOneFailure⟩ [] 0 "Color Theory").2.1
      100000 "Color Theory").2.2 :=
  ⟨cache_idempotence_and_stale_bypass.1 ⟨false, oracleOneFailure⟩ [] 0 10
      "Color Theory" "  COLOR THEORY " rfl rfl rfl (by decide),
   cache_idempotence_and_stale_bypass.2 ⟨false, oracleOneFailure⟩ [] 0 100000
      "Color Theory" rfl rfl (by decide)⟩

/-! ## Helper lemmas about the quiz-session dict -/

theorem quizLookup_erase (m : QuizMap) (pid : String) :
    quizLookup (quizErase m pid) pid = none := by
  induction m with
  | nil => rfl
  | cons e rest ih =>
    obtain ⟨k, v⟩ := e
    by_cases h : k = pid
    · simp [quizErase, h] at ih ⊢
      exact ih
    · simp [quizErase, h] at ih ⊢
      simp [quizLookup, h]
      exact ih

/-- A poll id with no session entry is ignored (handlers.py lines 1038-1039). -/
theorem onPollAnswer_not_found (m : QuizMap) (pid : String) (ids : List Nat) (pick : Nat)
    (s f : Bool) (h : quizLookup m pid = none) :
    onPollAnswer m pid ids pick s f = (none, m) := by
  unfold onPollAnswer
  rw [h]

/-- Every resolution of an open session either delivers a message and erases
the entry, or delivers nothing and leaves the dict unchanged. -/
theorem onPollAnswer_outcome (m : QuizMap) (pid : String) (qd : QuizData) (ids : List Nat)
    (pick : Nat) (s f : Bool) (hq : quizLookup m pid = some qd) :
    onPollAnswer m pid ids pick s f = (none, m) ∨
    ∃ msg, onPollAnswer m pid ids pick s f = (some msg, quizErase m pid) := by
  unfold onPollAnswer
  rw [hq]
  dsimp only
  split
  · cases s
    · cases f
      · exact Or.inl rfl
      · exact Or.inr ⟨_, rfl⟩
    · exact Or.inr ⟨_, rfl⟩
  · cases f
    · exact Or.inl rfl
    · exact Or.inr ⟨_, rfl⟩

/-- With the fallback send available, resolution always delivers a message. -/
theorem onPollAnswer_delivers (m : QuizMap) (pid : String) (qd : QuizData) (ids : List Nat)
    (pick : Nat) (s : Bool) (hq : quizLookup m pid = some qd) :
    ∃ msg, (onPollAnswer m pid ids pick s true).1 = some msg := by
  unfold onPollAnswer
  rw [hq]
  dsimp only
  split
  · cases s
    · exact ⟨_, rfl⟩
    · exact ⟨_, rfl⟩
  · exact ⟨_, rfl⟩

/-! ## Claim C7 -/

def quizDataSample : QuizData :=
  { correct_option := 1, explanation := "E", theme := "t", question := "q",
    options := ["A", "B"], option_explanations := ["ea", "eb"] }

/-- Claim C7 counterexample: when the feedback send and the fallback send both
fail, the first resolution of an open session returns no feedback and the
session entry survives (`del active_quizzes[poll_id]` runs only after a
successful send, handlers.py lines 1093 and 1105) — so the session is not
consumed by the first resolve. -/
theorem resolve_with_failed_sends_retains_session :
    onPollAnswer [("p", quizDataSample)] "p" [0] 0 false false =
      (none, [("p", quizDataSample)]) := rfl

/-- Claim C7 (amended): resolving an open session consumes it exactly when a
message is delivered: if the resolution delivers feedback (the primary send,
or the fallback reply after an exception), the entry is deleted and every
subsequent resolve for that `pollId` is a no-op returning `none`; if the
resolution delivers nothing (both sends fail), the dict is unchanged and the
session remains open.  When the fallback send works, a message is always
delivered. -/
theorem quiz_session_consumed_iff_delivered :
    ∀ (m : QuizMap) (pid : String) (qd : QuizData) (ids : List Nat) (pick : Nat) (s f : Bool),
      quizLookup m pid = some qd →
      ((onPollAnswer m pid ids pick s f).1 = none →
        (onPollAnswer m pid ids pick s f).2 = m) ∧
      (∀ msg, (onPollAnswer m pid ids pick s f).1 = some msg →
        quizLookup (onPollAnswer m pid ids pick s f).2 pid = none ∧
        ∀ ids' pick' s' f',
          onPollAnswer (onPollAnswer m pid ids pick s f).2 pid ids' pick' s' f' =
            (none, (onPollAnswer m pid ids pick s f).2)) ∧
      (f = true → ∃ msg, (onPollAnswer m pid ids pick s f).1 = some msg) := by
  intro m pid qd ids pick s f hq
  refine ⟨?_, ?_, ?_⟩
  · intro h1
    rcases onPollAnswer_outcome m pid qd ids pick s f hq with h | ⟨msg, h⟩
    · rw [h]
    · rw [h] at h1
      simp at h1
  · intro msg hmsg
    rcases onPollAnswer_outcome m pid qd ids pick s f hq with h | ⟨msg', h⟩
    · rw [h] at hmsg
      simp at hmsg
    · rw [h]
      refine ⟨quizLookup_erase m pid, ?_⟩
      intro ids' pick' s' f'
      exact onPollAnswer_not_found _ _ _ _ _ _ (quizLookup_erase m pid)
  · intro hf
    subst hf
    exact onPollAnswer_delivers m pid qd ids pick s hq

/-- Witness for `quiz_session_consumed_iff_delivered` at a concrete open
session. -/
theorem quiz_session_consumed_witness :
    ((onPollAnswer [("p", quizDataSample)] "p" [0] 0 true true).1 = none →
      (onPollAnswer [("p", quizDataSample)] "p" [0] 0 true true).2 =
        [("p", quizDataSample)]) ∧
    (∀ msg, (onPollAnswer [("p", quizDataSample)] "p" [0] 0 true true).1 = some msg →
      quizLookup (onPollAnswer [("p", quizDataSample)] "p" [0] 0 true true).2 "p" = none ∧
      ∀ ids' pick' s' f',
        onPollAnswer (onPollAnswer [("p", quizDataSample)] "p" [0] 0 true true).2 "p"
            ids' pick' s' f' =
          (none, (onPollAnswer [("p", quizDataSample)] "p" [0] 0 true true).2)) ∧
    (true = true →
      ∃ msg, (onPollAnswer [("p", quizDataSample)] "p" [0] 0 true true).1 = some msg) :=
  quiz_session_consumed_iff_delivered [("p", quizDataSample)] "p" quizDataSample
    [0] 0 true true rfl

/-! ## Claims C1, C10 (send_lesson) and C9 (scheduler) -/

/-- Claim C1: `send_lesson` is claimed to deliver a coherent lesson and quiz
whenever content acquisition succeeds, failing silently only on an
irrecoverably broken transport.  In the code every call dies first at
handlers.py line 481 — `from app.utils.persistence import
run_db_operation_threadsafe` names a function the persistence module never
defines, raising `ImportError` inside the function-wide `try` — so the
recipient receives nothing even when acquisition succeeded and every
transport send would work. -/
theorem send_lesson_delivers_nothing :
    ∀ env : SendEnv, sendLesson env = ([], none) :=
  fun _ => rfl

/-- Claim C10: `send_lesson` never propagates an exception — the handler at
handlers.py lines 773-775 catches everything its body raises and returns
`None` — and a caller observing no exception cannot conclude the delivery
succeeded; indeed the body fails on every input (the line-481 import, see
`sendLessonBody`), so the returned value is always `None`. -/
theorem send_lesson_never_raises_returns_none :
    ∀ env : SendEnv,
      (sendLessonBody env).2 = Except.error () ∧
      sendLesson env = ((sendLessonBody env).1, (sendLessonBody env).2.toOption) ∧
      (sendLesson env).2 = none :=
  fun _ => ⟨rfl, rfl, rfl⟩

/-- A per-subscriber environment: subscriber 1 has a fully broken transport,
subscriber 2 a healthy one. -/
def scheduledEnvOf : Nat → SendEnv := fun u =>
  if u = 1 then
    { lesson := getFallbackLesson "t", theme := "t", imageData := none,
      photoOk := false, textOk := false, pollOk := false }
  else
    { lesson := getFallbackLesson "t", theme := "t", imageData := none,
      photoOk := true, textOk := true, pollOk := true }

/-- Claim C9: the scheduler is claimed to record every failing recipient and
re-validate/remove exactly those.  Because `send_lesson` returns `None`
instead of raising (handlers.py 773-775), the `except` branch in
scheduler.py lines 91-93 that appends to `failed_subscribers` is dead code:
in a batch over subscribers 1 and 2 where subscriber 1's transport is fully
broken (nothing is delivered, second conjunct) and `get_chat` fails for
everyone, `success_count` still ends at 2, no failure is recorded and no
subscriber is removed. -/
theorem scheduled_batch_records_no_failures :
    sendScheduledLesson [1, 2] scheduledEnvOf (fun _ => false) = (2, [], []) ∧
    (sendLesson (scheduledEnvOf 1)).1 = [] :=
  ⟨rfl, rfl⟩

/-! ## Chunking lemmas for the delivery formatter (claim C8) -/

/-- Paragraphs re-joined with the `"\n\n"` separator (the shape of a chunk
built from whole paragraphs). -/
def joinPars : List String → String
  | [] => ""
  | [p] => p
  | p :: ps => p ++ "\n\n" ++ joinPars ps

/-- Character-level intercalation with a separator. -/
def charIntercalate (sep : List Char) : List (List Char) → List Char
  | [] => []
  | [x] => x
  | x :: xs => x ++ sep ++ charIntercalate sep xs

theorem joinPars_append_singleton :
    ∀ (l : List String) (p : String), l ≠ [] →
      joinPars (l ++ [p]) = joinPars l ++ "\n\n" ++ p
  | [], _, h => absurd rfl h
  | [x], p, _ => rfl
  | x :: y :: ys, p, _ => by
    have ih := joinPars_append_singleton (y :: ys) p (by simp)
    show x ++ "\n\n" ++ joinPars ((y :: ys) ++ [p]) = x ++ "\n\n" ++ joinPars (y :: ys) ++ "\n\n" ++ p
    rw [ih]
    simp only [String.append_assoc]

theorem pySplitAux_ne_nil (sep : List Char) :
    ∀ (fuel : Nat) (acc l : List Char), pySplitAux sep fuel acc l ≠ [] := by
  intro fuel
  induction fuel with
  | zero => intro acc l; simp [pySplitAux]
  | succ n ih =>
    intro acc l
    cases l with
    | nil => simp [pySplitAux]
    | cons c cs =>
      rw [pySplitAux]
      cases matchLit sep (c :: cs) with
      | none => exact ih (c :: acc) cs
      | some rest => simp

theorem charIntercalate_cons (sep x : List Char) (l : List (List Char)) (h : l ≠ []) :
    charIntercalate sep (x :: l) = x ++ sep ++ charIntercalate sep l := by
  obtain ⟨y, ys, rfl⟩ := List.exists_cons_of_ne_nil h
  rfl

theorem pySplitAux_reconstruct (sep : List Char) (hsep : sep ≠ []) :
    ∀ (fuel : Nat) (acc l : List Char), l.length ≤ fuel →
      charIntercalate sep (pySplitAux sep fuel acc l) = acc.reverse ++ l := by
  intro fuel
  induction fuel with
  | zero =>
    intro acc l hl
    have : l = [] := List.eq_nil_of_length_eq_zero (Nat.le_zero.mp hl)
    subst this
    simp [pySplitAux, charIntercalate]
  | succ n ih =>
    intro acc l hl
    cases l with
    | nil => simp [pySplitAux, charIntercalate]
    | cons c cs =>
      rw [pySplitAux]
      cases hm : matchLit sep (c :: cs) with
      | none =>
        rw [ih (c :: acc) cs (by simpa using hl)]
        simp
      | some rest =>
        have happ := matchLit_append hm
        have hrest : rest.length ≤ n := by
          have hpos : 0 < sep.length := List.length_pos.mpr hsep
          have : (c :: cs).length = sep.length + rest.length := by rw [happ]; simp
          simp at this hl
          omega
        dsimp only
        rw [charIntercalate_cons sep _ _ (pySplitAux_ne_nil sep n [] rest),
          ih [] rest hrest]
        simp [happ]

/-- Rebuilding the split pieces with the separator recovers the original
string. -/
theorem joinPars_pySplitPars (s : String) : joinPars (pySplitPars s) = s := by
  have hmap : ∀ l : List (List Char),
      joinPars (l.map String.mk) = String.mk (charIntercalate ['\n', '\n'] l) := by
    intro l
    induction l with
    | nil => rfl
    | cons x xs ih =>
      cases xs with
      | nil => rfl
      | cons y ys =>
        show String.mk x ++ "\n\n" ++ joinPars ((y :: ys).map String.mk) =
          String.mk (x ++ ['\n', '\n'] ++ charIntercalate ['\n', '\n'] (y :: ys))
        rw [ih]
        rfl
  unfold pySplitPars
  rw [hmap, pySplitAux_reconstruct ['\n', '\n'] (by simp) s.toList.length [] s.toList
    (Nat.le_refl _)]
  rfl

/-- The split never returns an empty list of pieces. -/
theorem pySplitPars_ne_nil (s : String) : pySplitPars s ≠ [] := by
  unfold pySplitPars
  intro h
  exact pySplitAux_ne_nil ['\n', '\n'] s.toList.length [] s.toList (List.map_eq_nil_iff.mp h)

/-- If every split piece is empty, the joined string is newlines only. -/
theorem joinPars_all_empty_chars :
    ∀ ps : List String, (∀ p ∈ ps, p = "") →
      ∀ ch ∈ (joinPars ps).toList, ch = '\n' := by
  intro ps
  induction ps with
  | nil => intro _ ch hch; simp [joinPars] at hch
  | cons p qs ih =>
    intro hall ch hch
    cases qs with
    | nil =>
      have := hall p (by simp)
      subst this
      simp [joinPars] at hch
    | cons q rs =>
      have hp := hall p (by simp)
      subst hp
      rw [show joinPars ("" :: q :: rs) = "" ++ "\n\n" ++ joinPars (q :: rs) from rfl] at hch
      rw [show ("" ++ "\n\n" ++ joinPars (q :: rs)).toList =
        "".toList ++ "\n\n".toList ++ (joinPars (q :: rs)).toList from rfl] at hch
      rw [show ("".toList ++ "\n\n".toList ++ (joinPars (q :: rs)).toList : List Char) =
        '\n' :: '\n' :: (joinPars (q :: rs)).toList from rfl] at hch
      rcases List.mem_cons.mp hch with h | h
      · exact h
      · rcases List.mem_cons.mp h with h2 | h2
        · exact h2
        · exact ih (fun x hx => hall x (by simp [hx])) ch h2

theorem hardSplitAux_mem_le (maxSize : Nat) :
    ∀ (fuel : Nat) (l c : List Char), c ∈ hardSplitAux maxSize fuel l → c.length ≤ maxSize := by
  intro fuel
  induction fuel with
  | zero => intro l c hc; simp [hardSplitAux] at hc
  | succ n ih =>
    intro l c hc
    cases l with
    | nil => simp [hardSplitAux] at hc
    | cons a as =>
      rw [show hardSplitAux maxSize (n + 1) (a :: as) =
        (a :: as).take maxSize :: hardSplitAux maxSize n ((a :: as).drop maxSize) from rfl] at hc
      rcases List.mem_cons.mp hc with h | h
      · subst h
        rw [List.length_take]
        exact Nat.min_le_left _ _
      · exact ih _ c h

theorem hardSplit_mem_le (maxSize : Nat) (s : String) :
    ∀ c ∈ hardSplit maxSize s, c.length ≤ maxSize := by
  intro c hc
  unfold hardSplit at hc
  obtain ⟨l, hl, rfl⟩ := List.mem_map.mp hc
  exact hardSplitAux_mem_le maxSize s.toList.length s.toList l hl

theorem hardSplit_ne_nil (maxSize : Nat) (s : String) (h : s.toList ≠ []) :
    hardSplit maxSize s ≠ [] := by
  unfold hardSplit
  obtain ⟨a, as, hs⟩ := List.exists_cons_of_ne_nil h
  rw [hs]
  simp [hardSplitAux]

/-- Every chunk the loop builds fits the ceiling. -/
theorem buildChunksAux_le (maxSize : Nat) :
    ∀ (ps : List String) (cur : String), cur.length ≤ maxSize →
      ∀ c ∈ buildChunksAux maxSize ps cur, c.length ≤ maxSize := by
  intro ps
  induction ps with
  | nil =>
    intro cur hcur c hc
    rw [buildChunksAux] at hc
    by_cases h : cur = ""
    · simp [h] at hc
    · simp [h] at hc
      subst hc
      exact hcur
  | cons p ps ih =>
    intro cur hcur c hc
    rw [buildChunksAux] at hc
    by_cases hfit : cur.length + p.length + 2 ≤ maxSize
    · rw [if_pos hfit] at hc
      by_cases hce : cur = ""
      · rw [if_pos hce] at hc
        refine ih p ?_ c hc
        have h0 : cur.length = 0 := by rw [hce]; rfl
        omega
      · rw [if_neg hce] at hc
        refine ih _ ?_ c hc
        rw [String.length_append, String.length_append]
        have h2 : ("\n\n" : String).length = 2 := rfl
        omega
    · rw [if_neg hfit] at hc
      rcases List.mem_append.mp hc with h | h
      · by_cases hce : cur = ""
        · simp [hce] at h
        · simp [hce] at h
          subst h
          exact hcur
      · by_cases hp : p.length ≤ maxSize
        · rw [if_pos hp] at h
          exact ih p hp c h
        · rw [if_neg hp] at h
          rcases List.mem_append.mp h with h2 | h2
          · exact hardSplit_mem_le maxSize p c h2
          · exact ih "" (by simp) c h2

/-- An empty chunk list means there was nothing to send: empty accumulator
and only empty paragraphs. -/
theorem buildChunksAux_eq_nil (maxSize : Nat) :
    ∀ (ps : List String) (cur : String),
      buildChunksAux maxSize ps cur = [] → cur = "" ∧ ∀ p ∈ ps, p = "" := by
  intro ps
  induction ps with
  | nil =>
    intro cur h
    rw [buildChunksAux] at h
    by_cases hce : cur = ""
    · exact ⟨hce, by simp⟩
    · rw [if_neg hce] at h
      simp at h
  | cons p ps ih =>
    intro cur h
    rw [buildChunksAux] at h
    by_cases hfit : cur.length + p.length + 2 ≤ maxSize
    · rw [if_pos hfit] at h
      by_cases hce : cur = ""
      · rw [if_pos hce] at h
        obtain ⟨hp, hps⟩ := ih p h
        refine ⟨hce, ?_⟩
        intro q hq
        rcases List.mem_cons.mp hq with hq | hq
        · rw [hq, hp]
        · exact hps q hq
      · rw [if_neg hce] at h
        obtain ⟨hcur', -⟩ := ih _ h
        exfalso
        have hlen : (cur ++ "\n\n" ++ p).length = 0 := by rw [hcur']; rfl
        rw [String.length_append, String.length_append] at hlen
        have h2 : ("\n\n" : String).length = 2 := rfl
        omega
    · rw [if_neg hfit] at h
      have happ := List.append_eq_nil.mp h
      by_cases hce : cur = ""
      · have second := happ.2
        by_cases hp : p.length ≤ maxSize
        · rw [if_pos hp] at second
          obtain ⟨hpe, hps⟩ := ih p second
          refine ⟨hce, ?_⟩
          intro q hq
          rcases List.mem_cons.mp hq with hq | hq
          · rw [hq, hpe]
          · exact hps q hq
        · rw [if_neg hp] at second
          exfalso
          have h2 := (List.append_eq_nil.mp second).1
          refine hardSplit_ne_nil maxSize p ?_ h2
          intro hnil
          have hl : p.length = 0 := by
            rw [show p.length = p.toList.length from rfl, hnil]
            rfl
          omega
      · exfalso
        have h1 := happ.1
        rw [if_neg hce] at h1
        simp at h1

theorem str_ne_of_len_pos {s : String} (h : 0 < s.length) : s ≠ "" := by
  intro he
  subst he
  simp at h

/-- When every paragraph fits the ceiling, the chunk loop never hard-splits:
the chunks are exactly the separator-joins of consecutive paragraph blocks,
in order, dropping only empty paragraphs. -/
theorem buildChunksAux_partition (maxSize : Nat) (hmax : 2 ≤ maxSize) :
    ∀ (ps : List String) (cur : String) (curBlock : List String),
      (∀ p ∈ ps, p.length ≤ maxSize) →
      ((curBlock = [] ∧ cur = "") ∨ (curBlock ≠ [] ∧ cur = joinPars curBlock ∧ cur ≠ "")) →
      ∃ blocks : List (List String),
        buildChunksAux maxSize ps cur = blocks.map joinPars ∧
        blocks.flatten.Sublist (curBlock ++ ps) ∧
        blocks.flatten.filter (fun p => p != "") =
          (curBlock ++ ps).filter (fun p => p != "") ∧
        ∀ b ∈ blocks, b ≠ [] := by
  intro ps
  induction ps with
  | nil =>
    intro cur curBlock hps hinv
    rcases hinv with ⟨hb, hc⟩ | ⟨hb, hj, hne⟩
    · subst hb
      subst hc
      refine ⟨[], by rw [buildChunksAux]; simp, by simp, by simp, by simp⟩
    · refine ⟨[curBlock], ?_, by simp, by simp, by simpa using hb⟩
      rw [buildChunksAux, if_neg hne]
      simp [hj]
  | cons p ps ih =>
    intro cur curBlock hps hinv
    have hple : p.length ≤ maxSize := hps p (List.mem_cons_self p ps)
    have hps' : ∀ q ∈ ps, q.length ≤ maxSize := fun q hq => hps q (List.mem_cons_of_mem p hq)
    rw [buildChunksAux]
    by_cases hfit : cur.length + p.length + 2 ≤ maxSize
    · rw [if_pos hfit]
      rcases hinv with ⟨hb, hc⟩ | ⟨hb, hj, hne⟩
      · subst hb
        rw [if_pos hc]
        by_cases hp : p = ""
        · obtain ⟨blocks, h1, h2, h3, h4⟩ := ih p [] hps' (Or.inl ⟨rfl, hp⟩)
          refine ⟨blocks, h1, ?_, ?_, h4⟩
          · simp only [List.nil_append] at h2 ⊢
            exact h2.trans (List.sublist_cons_self p ps)
          · simp only [List.nil_append] at h3 ⊢
            rw [h3, List.filter_cons]
            simp [hp]
        · obtain ⟨blocks, h1, h2, h3, h4⟩ := ih p [p] hps' (Or.inr ⟨by simp, rfl, hp⟩)
          exact ⟨blocks, h1, by simpa using h2, by simpa using h3, h4⟩
      · rw [if_neg hne]
        have hcur' : cur ++ "\n\n" ++ p = joinPars (curBlock ++ [p]) := by
          rw [joinPars_append_singleton curBlock p hb, ← hj]
        have hne' : cur ++ "\n\n" ++ p ≠ "" := by
          apply str_ne_of_len_pos
          rw [String.length_append, String.length_append]
          have h2 : ("\n\n" : String).length = 2 := rfl
          omega
        obtain ⟨blocks, h1, h2, h3, h4⟩ := ih (cur ++ "\n\n" ++ p) (curBlock ++ [p]) hps'
          (Or.inr ⟨by simp, hcur', hne'⟩)
        refine ⟨blocks, h1, ?_, ?_, h4⟩
        · rw [List.append_assoc, List.singleton_append] at h2
          exact h2
        · rw [List.append_assoc, List.singleton_append] at h3
          exact h3
    · rw [if_neg hfit, if_pos hple]
      rcases hinv with ⟨hb, hc⟩ | ⟨hb, hj, hne⟩
      · subst hb
        rw [if_pos hc]
        have hp : p ≠ "" := by
          intro hpe
          apply hfit
          have h0 : cur.length = 0 := by rw [hc]; rfl
          have h1 : p.length = 0 := by rw [hpe]; rfl
          omega
        obtain ⟨blocks, h1, h2, h3, h4⟩ := ih p [p] hps' (Or.inr ⟨by simp, rfl, hp⟩)
        refine ⟨blocks, by simpa using h1, by simpa using h2, by simpa using h3, h4⟩
      · rw [if_neg hne]
        by_cases hp : p = ""
        · subst hp
          obtain ⟨blocks, h1, h2, h3, h4⟩ := ih "" [] hps' (Or.inl ⟨rfl, rfl⟩)
          refine ⟨curBlock :: blocks, ?_, ?_, ?_, ?_⟩
          · rw [h1, hj]
            rfl
          · simp only [List.flatten_cons, List.nil_append] at h2 ⊢
            exact (h2.trans (List.sublist_cons_self "" ps)).append_left curBlock
          · simp only [List.flatten_cons, List.nil_append] at h3 ⊢
            rw [List.filter_append, List.filter_append, h3, List.filter_cons]
            simp
          · intro b hb2
            rcases List.mem_cons.mp hb2 with rfl | hb3
            · exact hb
            · exact h4 b hb3
        · obtain ⟨blocks, h1, h2, h3, h4⟩ := ih p [p] hps' (Or.inr ⟨by simp, rfl, hp⟩)
          refine ⟨curBlock :: blocks, ?_, ?_, ?_, ?_⟩
          · rw [h1, hj]
            rfl
          · simp only [List.flatten_cons, List.singleton_append] at h2 ⊢
            exact h2.append_left curBlock
          · simp only [List.flatten_cons, List.singleton_append] at h3 ⊢
            rw [List.filter_append, List.filter_append, h3]
          · intro b hb2
            rcases List.mem_cons.mp hb2 with rfl | hb3
            · exact hb
            · exact h4 b hb3

theorem strToList_append (a b : String) : (a ++ b).toList = a.toList ++ b.toList := rfl

/-! ## Claim C8 -/

/-- Claim C8: formatting a lesson that has an image.  If title + content +
attribution fit the 1024-unit caption ceiling, exactly one image-with-caption
message is emitted; otherwise the image goes out with a title-only caption
followed by one or more plain-text continuation messages, each at most the
4000-unit ceiling, and — when every paragraph fits the ceiling — split at
paragraph (`"\n\n"`) boundaries: the chunks are joins of consecutive
paragraph blocks covering every non-empty paragraph in order. -/
theorem format_with_image_caption_split (d : LessonData) (img : ImgData) (mc : String)
    (hmc : messageContentOf (coerceLessonFields d) = some mc) :
    ((messageTitleOf (coerceLessonFields d) ++ mc ++ attributionOf (some img)).length ≤ 1024 →
      formatDelivery d (some img) =
        some [Msg.photo img.source
          (messageTitleOf (coerceLessonFields d) ++ mc ++ attributionOf (some img))]) ∧
    (1024 < (messageTitleOf (coerceLessonFields d) ++ mc ++ attributionOf (some img)).length →
      ∃ conts : List String,
        formatDelivery d (some img) =
          some (Msg.photo img.source (messageTitleOf (coerceLessonFields d)) ::
            conts.map Msg.text) ∧
        conts ≠ [] ∧
        (∀ c ∈ conts, c.length ≤ 4000) ∧
        ((∀ p ∈ pySplitPars (mc ++ attributionOf (some img)), p.length ≤ 4000) →
          ∃ blocks : List (List String),
            conts = blocks.map joinPars ∧
            blocks.flatten.Sublist (pySplitPars (mc ++ attributionOf (some img))) ∧
            blocks.flatten.filter (fun p => p != "") =
              (pySplitPars (mc ++ attributionOf (some img))).filter (fun p => p != "") ∧
            ∀ b ∈ blocks, b ≠ [])) := by
  have hmc' := hmc
  unfold messageContentOf at hmc'
  obtain ⟨cb, hcb, hmceq⟩ := Option.map_eq_some'.mp hmc'
  have hunf : formatDelivery d (some img) =
      some (if (messageTitleOf (coerceLessonFields d) ++ mc ++
            attributionOf (some img)).length ≤ 1024 then
          [Msg.photo img.source
            (messageTitleOf (coerceLessonFields d) ++ mc ++ attributionOf (some img))]
        else
          Msg.photo img.source (messageTitleOf (coerceLessonFields d)) ::
            (if 4000 < (mc ++ attributionOf (some img)).length then
              (sendLargeTextInChunks (mc ++ attributionOf (some img))).map Msg.text
            else [Msg.text (mc ++ attributionOf (some img))])) := by
    unfold formatDelivery
    dsimp only
    rw [hmc]
  constructor
  · intro hfit
    rw [hunf, if_pos hfit]
  · intro hbig
    rw [hunf, if_neg (not_le.mpr hbig)]
    by_cases hr : 4000 < (mc ++ attributionOf (some img)).length
    · rw [if_pos hr]
      refine ⟨sendLargeTextInChunks (mc ++ attributionOf (some img)), rfl, ?_, ?_, ?_⟩
      · unfold sendLargeTextInChunks
        rw [if_neg (not_le.mpr hr)]
        intro hnil
        obtain ⟨-, hall⟩ :=
          buildChunksAux_eq_nil 4000 (pySplitPars (mc ++ attributionOf (some img))) "" hnil
        have hch := joinPars_all_empty_chars _ hall
        rw [joinPars_pySplitPars] at hch
        have h1 : '━' ∈ separatorLine.toList := by decide
        have hmem : '━' ∈ (mc ++ attributionOf (some img)).toList := by
          rw [← hmceq, strToList_append, strToList_append, strToList_append]
          simp only [List.mem_append]
          exact Or.inl (Or.inr h1)
        exact absurd (hch '━' hmem) (by decide)
      · intro c hc
        unfold sendLargeTextInChunks at hc
        rw [if_neg (not_le.mpr hr)] at hc
        exact buildChunksAux_le 4000 _ "" (by simp) c hc
      · intro hps
        unfold sendLargeTextInChunks
        rw [if_neg (not_le.mpr hr)]
        obtain ⟨blocks, h1, h2, h3, h4⟩ :=
          buildChunksAux_partition 4000 (by omega) (pySplitPars
            (mc ++ attributionOf (some img))) "" [] hps (Or.inl ⟨rfl, rfl⟩)
        exact ⟨blocks, h1, by simpa using h2, by simpa using h3, h4⟩
    · rw [if_neg hr]
      refine ⟨[mc ++ attributionOf (some img)], rfl, by simp, ?_, ?_⟩
      · intro c hc
        simp at hc
        subst hc
        exact not_lt.mp hr
      · intro _
        refine ⟨[pySplitPars (mc ++ attributionOf (some img))], ?_, by simp, by simp, ?_⟩
        · simp [joinPars_pySplitPars]
        · simpa using pySplitPars_ne_nil (mc ++ attributionOf (some img))

/-- A small lesson and image used as the formatter witness. -/
def lessonW : LessonData :=
  { title := .jstr "T", content := .jstr "hello", quiz_question := .jstr "Q",
    quiz_options := [.jstr "A", .jstr "B"], correct_option_index := 0,
    explanation := .jstr "E", option_explanations := .jlist [] }

def imgW : ImgData := { source := .url "http://x/y.png", attribution := some "Photo by Z" }

def mcW : String := "\nhello" ++ "\n\n" ++ separatorLine

/-- Witness for `format_with_image_caption_split` at a concrete short lesson. -/
theorem format_with_image_witness :
    ((messageTitleOf (coerceLessonFields lessonW) ++ mcW ++
        attributionOf (some imgW)).length ≤ 1024 →
      formatDelivery lessonW (some imgW) =
        some [Msg.photo imgW.source
          (messageTitleOf (coerceLessonFields lessonW) ++ mcW ++
            attributionOf (some imgW))]) ∧
    (1024 < (messageTitleOf (coerceLessonFields lessonW) ++ mcW ++
        attributionOf (some imgW)).length →
      ∃ conts : List String,
        formatDelivery lessonW (some imgW) =
          some (Msg.photo imgW.source (messageTitleOf (coerceLessonFields lessonW)) ::
            conts.map Msg.text) ∧
        conts ≠ [] ∧
        (∀ c ∈ conts, c.length ≤ 4000) ∧
        ((∀ p ∈ pySplitPars (mcW ++ attributionOf (some imgW)), p.length ≤ 4000) →
          ∃ blocks : List (List String),
            conts = blocks.map joinPars ∧
            blocks.flatten.Sublist (pySplitPars (mcW ++ attributionOf (some imgW))) ∧
            blocks.flatten.filter (fun p => p != "") =
              (pySplitPars (mcW ++ attributionOf (some imgW))).filter (fun p => p != "") ∧
            ∀ b ∈ blocks, b ≠ [])) :=
  format_with_image_caption_split lessonW imgW mcW rfl
